import Mathlib

/-
Shallow embedding of the navigation/cursor core of the tui-file-explorer
repository (src/components/app.rs).

Modelling conventions:
  * A filesystem path is a list of segments from the filesystem root; the
    root itself is the empty list.  PathBuf::pop removes the last segment
    and is a no-op at the root, so it is List.dropLast.  The entries
    returned by read_dir carry absolute paths (the base directory joined
    with the file name), and PathBuf::push with an absolute argument
    replaces the whole path, so pushing an entry path replaces
    current_dir_path with the entry path.
  * The filesystem is a pure function fs from a path to the sorted entry
    list read_dir produces there; the code unwraps the read, so a read is
    assumed to succeed (read failure aborts the program and settles no
    claim below).
  * usize arithmetic that can panic (underflowing subtraction, division or
    remainder by zero, out-of-range Vec indexing) is modelled with Option:
    none is a panic.  All quantities are Nat; usize overflow is impossible
    in the relevant range (additions of in-range indices and heights).
-/

namespace TuiExplorer

/-- Kind of a directory entry as observed through is_dir / is_file. -/
inductive EntryKind where
  | file
  | dir
  | other
deriving DecidableEq, Repr

/-- One entry of a directory listing: its absolute path (read_dir returns
full paths) and its kind. -/
structure Entry where
  path : List String
  kind : EntryKind
deriving DecidableEq, Repr

/-- The App struct of src/components/app.rs, fields as in the source. -/
structure App where
  exit : Bool
  current_dir_path : List String
  current_dir_contents : List Entry
  cursor_positions : List Nat
  current_cursor_depth : Nat
  view_file : Bool
deriving DecidableEq, Repr

/-- Rust usize::checked_sub: none exactly when the subtraction would
underflow (an unchecked usize subtraction that underflows panics, which is
also modelled by none at its call sites). -/
def checked_sub (a b : Nat) : Option Nat :=
  if b ≤ a then some (a - b) else none

/-- Rust usize::div_ceil: self / rhs rounded up; panics (none) when rhs is
zero. -/
def div_ceil (a b : Nat) : Option Nat :=
  if b = 0 then none else some (a / b + if a % b = 0 then 0 else 1)

/-- Rust remainder on usize: panics (none) when the divisor is zero. -/
def checked_mod (a b : Nat) : Option Nat :=
  if b = 0 then none else some (a % b)

/-- The index arithmetic of move_cursor_right (src/components/app.rs,
lines 154-174), abstracted over the entry count, the column height and the
current cursor position.  The three branches are exactly the source's. -/
def move_right_index (len column_height pos : Nat) : Option Nat :=
  match div_ceil len column_height with
  | none => none
  | some number_of_columns =>
    let new_position := pos + column_height
    if new_position < len then
      -- Can move cursor directly right
      some new_position
    else if new_position < column_height * number_of_columns then
      -- Moving cursor into last column with no entry directly right
      some (len - 1)
    else
      -- Wrap around from the last column to the first column
      checked_mod new_position number_of_columns

/-- The index arithmetic of move_cursor_left (src/components/app.rs,
lines 176-195).  Note that unwrap_or evaluates its argument eagerly, so
(number_of_columns - 1) is computed, and can underflow, even when
checked_sub pos column_height succeeds. -/
def move_left_index (len column_height pos : Nat) : Option Nat :=
  match div_ceil len column_height with
  | none => none
  | some number_of_columns =>
    match checked_sub number_of_columns 1 with
    | none => none
    | some cols_minus_one =>
      let new_position :=
        match checked_sub pos column_height with
        | some v => v
        | none => cols_minus_one * column_height + pos
      if len ≤ new_position then
        -- Wrapped to the last column with no entry at this row
        some len
      else
        some new_position

/-- The index arithmetic of move_cursor_up (src/components/app.rs,
lines 138-144): len - 1 is computed (and can panic) only in the pos = 0
branch. -/
def move_up_index (len pos : Nat) : Option Nat :=
  if pos = 0 then checked_sub len 1 else some (pos - 1)

/-- The index arithmetic of move_cursor_down (src/components/app.rs,
lines 146-152): the comparison evaluates len - 1 first, panicking on an
empty list. -/
def move_down_index (len pos : Nat) : Option Nat :=
  match checked_sub len 1 with
  | none => none
  | some last_index => if pos = last_index then some 0 else some (pos + 1)

/-- current_cursor_position: Vec indexing panics when the depth is out of
range of the cursor stack. -/
def App.current_cursor_position (s : App) : Option Nat :=
  s.cursor_positions[s.current_cursor_depth]?

/-- The entry under the cursor, when the cursor indexes the entry list. -/
def App.selected_entry (s : App) : Option Entry :=
  match s.current_cursor_position with
  | none => none
  | some pos => s.current_dir_contents[pos]?

/-- currently_on_dir: indexes the entry list at the cursor (panicking when
out of range) and tests is_dir. -/
def App.currently_on_dir (s : App) : Option Bool :=
  match s.selected_entry with
  | none => none
  | some e => some (decide (e.kind = EntryKind.dir))

/-- currently_on_file: indexes the entry list at the cursor and tests
is_file. -/
def App.currently_on_file (s : App) : Option Bool :=
  match s.selected_entry with
  | none => none
  | some e => some (decide (e.kind = EntryKind.file))

/-- Writes the current depth's cursor slot. -/
def App.set_cursor (s : App) (v : Nat) : App :=
  { s with cursor_positions := s.cursor_positions.set s.current_cursor_depth v }

/-- move_cursor_up on the App state. -/
def move_cursor_up (s : App) : Option App :=
  match s.current_cursor_position with
  | none => none
  | some pos =>
    match move_up_index s.current_dir_contents.length pos with
    | none => none
    | some v => some (s.set_cursor v)

/-- move_cursor_down on the App state. -/
def move_cursor_down (s : App) : Option App :=
  match s.current_cursor_position with
  | none => none
  | some pos =>
    match move_down_index s.current_dir_contents.length pos with
    | none => none
    | some v => some (s.set_cursor v)

/-- move_cursor_right on the App state; the column height is the frame
height minus 3 (saturating), as in the source. -/
def move_cursor_right (frame_height : Nat) (s : App) : Option App :=
  let column_height := frame_height - 3
  match s.current_cursor_position with
  | none => none
  | some pos =>
    match move_right_index s.current_dir_contents.length column_height pos with
    | none => none
    | some v => some (s.set_cursor v)

/-- move_cursor_left on the App state. -/
def move_cursor_left (frame_height : Nat) (s : App) : Option App :=
  let column_height := frame_height - 3
  match s.current_cursor_position with
  | none => none
  | some pos =>
    match move_left_index s.current_dir_contents.length column_height pos with
    | none => none
    | some v => some (s.set_cursor v)

/-- go_into_dir (src/components/app.rs, lines 197-205): push the selected
entry's absolute path (replacing the current path), re-read the contents,
increment the depth, and push a 0 cursor slot when the stack is too
short. -/
def go_into_dir (fs : List String → List Entry) (s : App) : Option App :=
  match s.selected_entry with
  | none => none
  | some e =>
    let new_path := e.path
    let new_contents := fs new_path
    let new_depth := s.current_cursor_depth + 1
    let new_stack :=
      if s.cursor_positions.length ≤ new_depth then
        s.cursor_positions ++ [0]
      else
        s.cursor_positions
    some { s with
      current_dir_path := new_path
      current_dir_contents := new_contents
      current_cursor_depth := new_depth
      cursor_positions := new_stack }

/-- go_out_of_dir (src/components/app.rs, lines 207-212): pop the last
path segment (a no-op at the root), re-read the contents, decrement the
depth (panicking on underflow at depth 0), and pop the cursor stack. -/
def go_out_of_dir (fs : List String → List Entry) (s : App) : Option App :=
  let new_path := s.current_dir_path.dropLast
  let new_contents := fs new_path
  match checked_sub s.current_cursor_depth 1 with
  | none => none
  | some new_depth =>
    some { s with
      current_dir_path := new_path
      current_dir_contents := new_contents
      current_cursor_depth := new_depth
      cursor_positions := s.cursor_positions.dropLast }

/-- App::new (src/components/app.rs, lines 32-53): for an absolute start
path of k segments, ancestors().count() - 1 = k, and the cursor stack is
k + 1 zeros. -/
def App.new (fs : List String → List Entry) (start_path : List String) : App :=
  let depth := start_path.length
  { exit := false
    current_dir_path := start_path
    current_dir_contents := fs start_path
    cursor_positions := List.replicate (depth + 1) 0
    current_cursor_depth := depth
    view_file := false }

/-- The abstract navigation commands dispatched by handle_key_event. -/
inductive Cmd where
  | quit
  | up
  | down
  | right
  | left
  | enter
  | back
  | toggle
deriving DecidableEq, Repr

/-- handle_key_event (src/components/app.rs, lines 78-104): Enter is
gated on currently_on_dir (whose indexing can itself panic), the 'c' key
on view_file || currently_on_file (with Rust's short-circuit or), and
Backspace calls go_out_of_dir with no depth guard. -/
def handle_key_event (fs : List String → List Entry) (frame_height : Nat)
    (c : Cmd) (s : App) : Option App :=
  match c with
  | Cmd.quit => some { s with exit := true }
  | Cmd.down => move_cursor_down s
  | Cmd.up => move_cursor_up s
  | Cmd.right => move_cursor_right frame_height s
  | Cmd.left => move_cursor_left frame_height s
  | Cmd.enter =>
    match s.currently_on_dir with
    | none => none
    | some true => go_into_dir fs s
    | some false => some s
  | Cmd.back => go_out_of_dir fs s
  | Cmd.toggle =>
    match (if s.view_file then some true else s.currently_on_file) with
    | none => none
    | some true => some { s with view_file := !s.view_file }
    | some false => some s

/-- The MoveRight formula as the spec states it (ceiling division written
as a closed form), for comparison with the source's move_right_index. -/
def grid_move_right_spec (N H i : Nat) : Nat :=
  let cols := (N + H - 1) / H
  let candidate := i + H
  if candidate < N then candidate
  else if candidate < H * cols then N - 1
  else candidate % cols

/-- The MoveLeft formula as the spec states it, for comparison with the
source's move_left_index. -/
def grid_move_left_spec (N H i : Nat) : Nat :=
  let cols := (N + H - 1) / H
  let candidate := if H ≤ i then i - H else (cols - 1) * H + i
  if N ≤ candidate then N else candidate

/-- The cursor-stack length invariant of the spec: one slot per depth
level. -/
def stack_inv (s : App) : Prop :=
  s.cursor_positions.length = s.current_cursor_depth + 1

/-- A fixed three-entry listing (the spec's [a, b, c] scenario). -/
def abcEntries : List Entry :=
  [⟨["a"], EntryKind.file⟩, ⟨["b"], EntryKind.file⟩, ⟨["c"], EntryKind.file⟩]

/-- A filesystem whose every directory is empty. -/
def empty_fs : List String → List Entry := fun _ => []

/-- An App state browsing an empty directory (a valid no-selection state
according to the spec). -/
def empty_dir_app : App :=
  App.mk false ["d"] [] [0] 0 false

/-- An App state at the navigation root (depth 0) with one entry. -/
def at_root_app : App :=
  App.mk false [] [⟨["e"], EntryKind.dir⟩] [0] 0 false

/-- An App state over [a, b, c] at cursor 1, where MoveLeft with column
height 2 (frame height 5) wraps out of range. -/
def abc_cursor1_app : App :=
  App.mk false ["d"] abcEntries [1] 0 false

/-- Rust's div_ceil agrees with the closed ceiling form (a + b - 1) / b
for a positive divisor. -/
theorem div_ceil_eq_closed (a b : Nat) (hb : 0 < b) :
    div_ceil a b = some ((a + b - 1) / b) := by
  unfold div_ceil
  rw [if_neg (Nat.pos_iff_ne_zero.mp hb)]
  congr 1
  obtain ⟨q, r, hr, rfl⟩ : ∃ q r, r < b ∧ a = b * q + r :=
    ⟨a / b, a % b, Nat.mod_lt _ hb, ((Nat.div_add_mod a b)).symm⟩
  rw [Nat.mul_add_div hb, Nat.mul_add_mod, Nat.div_eq_of_lt hr, Nat.mod_eq_of_lt hr]
  have h1 : b * q + r + b - 1 = b * q + (r + b - 1) := by omega
  rw [h1, Nat.mul_add_div hb]
  rcases Nat.eq_zero_or_pos r with h0 | h0
  · subst h0
    rw [Nat.div_eq_of_lt (by omega)]
    simp
  · have h2 : r + b - 1 = (r - 1) + b := by omega
    rw [if_neg (by omega), h2, Nat.add_div_right _ hb, Nat.div_eq_of_lt (by omega)]

/-- For N, H positive, the ceiling column count is positive and at most
N. -/
theorem cols_pos_le (N H : Nat) (hN : 0 < N) (hH : 0 < H) :
    0 < (N + H - 1) / H ∧ (N + H - 1) / H ≤ N := by
  constructor
  · exact (Nat.one_le_div_iff hH).mpr (by omega)
  · have h1 : N + H - 1 ≤ H * N + (H - 1) := by
      have := Nat.le_mul_of_pos_left N hH
      omega
    calc (N + H - 1) / H ≤ (H * N + (H - 1)) / H := Nat.div_le_div_right h1
      _ = N + (H - 1) / H := Nat.mul_add_div hH N (H - 1)
      _ = N := by rw [Nat.div_eq_of_lt (by omega)]; omega

/-- Rewrites checked_sub to its successful value. -/
theorem checked_sub_eq_some (a b : Nat) (h : b ≤ a) :
    checked_sub a b = some (a - b) := by
  unfold checked_sub
  rw [if_pos h]

/-- Rewrites checked_sub to none on underflow. -/
theorem checked_sub_eq_none (a b : Nat) (h : ¬ b ≤ a) :
    checked_sub a b = none := by
  unfold checked_sub
  rw [if_neg h]

/-- C1: for every entry count N ≥ 1, column height H ≥ 1, and cursor
index i < N, MoveRight computes i + H when in range, else snaps to N - 1
when the candidate lies under H * ceil(N/H), else wraps to
(i + H) mod ceil(N/H) — the column count, not the row height, is the
modulus; in particular with N = 3, H = 2, MoveRight sends 0 to 2 and 2 to
0. -/
theorem c1_move_right_formula :
    (∀ N H i, 1 ≤ N → 1 ≤ H → i < N →
      move_right_index N H i = some (grid_move_right_spec N H i))
    ∧ move_right_index 3 2 0 = some 2
    ∧ move_right_index 3 2 2 = some 0 := by
  refine ⟨?_, by decide, by decide⟩
  intro N H i hN hH hi
  have hc := cols_pos_le N H hN hH
  rw [move_right_index, div_ceil_eq_closed N H hH]
  simp only [grid_move_right_spec, checked_mod]
  split
  · rfl
  · split
    · rfl
    · rw [if_neg (by omega)]

/-- Witness for c1_move_right_formula at N = 3, H = 2, i = 1. -/
theorem c1_move_right_formula_witness :
    move_right_index 3 2 1 = some (grid_move_right_spec 3 2 1) :=
  c1_move_right_formula.1 3 2 1 (by decide) (by decide) (by decide)

/-- C2: for every entry count N ≥ 1, column height H ≥ 1, and cursor
index i < N, MoveLeft computes the candidate i - H when i ≥ H and
(ceil(N/H) - 1) * H + i otherwise, then yields N itself — one past the
last valid entry, not clamped to N - 1 — whenever the candidate is ≥ N,
and the candidate otherwise. -/
theorem c2_move_left_formula :
    ∀ N H i, 1 ≤ N → 1 ≤ H → i < N →
      move_left_index N H i = some (grid_move_left_spec N H i) := by
  intro N H i hN hH hi
  have hc := cols_pos_le N H hN hH
  have h1 : checked_sub ((N + H - 1) / H) 1 = some ((N + H - 1) / H - 1) :=
    checked_sub_eq_some _ _ (by omega)
  rw [move_left_index, div_ceil_eq_closed N H hH]
  by_cases hiH : H ≤ i
  · simp only [h1, checked_sub_eq_some i H hiH, grid_move_left_spec, if_pos hiH]
    exact (apply_ite some _ _ _).symm
  · simp only [h1, checked_sub_eq_none i H hiH, grid_move_left_spec, if_neg hiH]
    exact (apply_ite some _ _ _).symm

/-- Witness for c2_move_left_formula at N = 3, H = 2, i = 1, where the
computed cursor is the out-of-range sentinel N = 3. -/
theorem c2_move_left_formula_witness :
    move_left_index 3 2 1 = some (grid_move_left_spec 3 2 1) ∧
    grid_move_left_spec 3 2 1 = 3 :=
  ⟨c2_move_left_formula 3 2 1 (by decide) (by decide) (by decide), by decide⟩

/-- C9: on a non-empty list of N entries, MoveDown increments below the
last index and wraps N - 1 to 0, MoveUp decrements above 0 and wraps 0 to
N - 1, and MoveDown followed by MoveUp is the identity on every index
below N - 1. -/
theorem c9_vertical_moves :
    ∀ N i, 1 ≤ N → i < N →
      (i < N - 1 → move_down_index N i = some (i + 1))
      ∧ (i = N - 1 → move_down_index N i = some 0)
      ∧ (0 < i → move_up_index N i = some (i - 1))
      ∧ (i = 0 → move_up_index N i = some (N - 1))
      ∧ (i < N - 1 →
          Option.bind (move_down_index N i) (move_up_index N) = some i) := by
  intro N i hN hi
  have hsub : checked_sub N 1 = some (N - 1) := checked_sub_eq_some N 1 hN
  refine ⟨?_, ?_, ?_, ?_, ?_⟩
  · intro h
    simp only [move_down_index, hsub]
    rw [if_neg (by omega)]
  · intro h
    simp only [move_down_index, hsub, if_pos h]
  · intro h
    simp only [move_up_index]
    rw [if_neg (by omega)]
  · intro h
    simp only [move_up_index, if_pos h, hsub]
  · intro h
    simp only [move_down_index, hsub]
    rw [if_neg (by omega : ¬ i = N - 1), Option.some_bind]
    simp only [move_up_index]
    rw [if_neg (by omega : ¬ i + 1 = 0)]
    simp

/-- Witness for c9_vertical_moves at N = 3, i = 1. -/
theorem c9_vertical_moves_witness :
    move_down_index 3 1 = some 2 ∧
    Option.bind (move_down_index 3 1) (move_up_index 3) = some 1 := by
  have h := c9_vertical_moves 3 1 (by decide) (by decide)
  exact ⟨h.1 (by decide), h.2.2.2.2 (by decide)⟩

/-- C10: for every N ≥ 1, H ≥ 1 and i < N, MoveRight lands in range in
all three of its branches — in the wrap branch because
(i + H) mod ceil(N/H) < ceil(N/H) ≤ N — so MoveRight alone preserves the
in-range cursor invariant. -/
theorem c10_move_right_stays_in_range :
    ∀ N H i, 1 ≤ N → 1 ≤ H → i < N →
      ∃ j, move_right_index N H i = some j ∧ j < N := by
  intro N H i hN hH hi
  have hc := cols_pos_le N H hN hH
  rw [move_right_index, div_ceil_eq_closed N H hH]
  simp only [checked_mod]
  split
  · rename_i h
    exact ⟨_, rfl, h⟩
  · split
    · exact ⟨_, rfl, by omega⟩
    · rw [if_neg (by omega)]
      refine ⟨_, rfl, ?_⟩
      have hm := Nat.mod_lt (i + H) hc.1
      omega

/-- Witness for c10_move_right_stays_in_range at N = 3, H = 2, i = 2
(the wraparound branch). -/
theorem c10_move_right_stays_in_range_witness :
    ∃ j, move_right_index 3 2 2 = some j ∧ j < 3 :=
  c10_move_right_stays_in_range 3 2 2 (by decide) (by decide) (by decide)

/-- A successful move_cursor_up only rewrites the current depth's cursor
slot. -/
theorem move_cursor_up_shape (s s₁ : App) (h : move_cursor_up s = some s₁) :
    ∃ v, s₁ = s.set_cursor v := by
  unfold move_cursor_up at h
  split at h
  · cases h
  · split at h
    · cases h
    · injection h with h₂
      exact ⟨_, h₂.symm⟩

/-- A successful move_cursor_down only rewrites the current depth's
cursor slot. -/
theorem move_cursor_down_shape (s s₁ : App) (h : move_cursor_down s = some s₁) :
    ∃ v, s₁ = s.set_cursor v := by
  unfold move_cursor_down at h
  split at h
  · cases h
  · split at h
    · cases h
    · injection h with h₂
      exact ⟨_, h₂.symm⟩

/-- A successful move_cursor_right only rewrites the current depth's
cursor slot. -/
theorem move_cursor_right_shape (fh : Nat) (s s₁ : App)
    (h : move_cursor_right fh s = some s₁) :
    ∃ v, s₁ = s.set_cursor v := by
  unfold move_cursor_right at h
  split at h
  · cases h
  · dsimp only at h
    split at h
    · cases h
    · injection h with h₂
      exact ⟨_, h₂.symm⟩

/-- A successful move_cursor_left only rewrites the current depth's
cursor slot. -/
theorem move_cursor_left_shape (fh : Nat) (s s₁ : App)
    (h : move_cursor_left fh s = some s₁) :
    ∃ v, s₁ = s.set_cursor v := by
  unfold move_cursor_left at h
  split at h
  · cases h
  · dsimp only at h
    split at h
    · cases h
    · injection h with h₂
      exact ⟨_, h₂.symm⟩

/-- A successful go_into_dir replaces path and contents, increments the
depth, and extends the stack by one zero slot exactly when the stack has
no slot for the new depth. -/
theorem go_into_dir_shape (fs : List String → List Entry) (s s₁ : App)
    (h : go_into_dir fs s = some s₁) :
    ∃ e, s.selected_entry = some e ∧
      s₁ = { s with
        current_dir_path := e.path
        current_dir_contents := fs e.path
        current_cursor_depth := s.current_cursor_depth + 1
        cursor_positions :=
          if s.cursor_positions.length ≤ s.current_cursor_depth + 1 then
            s.cursor_positions ++ [0]
          else
            s.cursor_positions } := by
  unfold go_into_dir at h
  split at h
  · cases h
  · rename_i e hsel
    injection h with h₂
    exact ⟨e, hsel, h₂.symm⟩

/-- A successful go_out_of_dir requires positive depth and pops one path
segment and one stack slot. -/
theorem go_out_of_dir_shape (fs : List String → List Entry) (s s₁ : App)
    (h : go_out_of_dir fs s = some s₁) :
    1 ≤ s.current_cursor_depth ∧
    s₁ = { s with
      current_dir_path := s.current_dir_path.dropLast
      current_dir_contents := fs s.current_dir_path.dropLast
      current_cursor_depth := s.current_cursor_depth - 1
      cursor_positions := s.cursor_positions.dropLast } := by
  unfold go_out_of_dir at h
  split at h
  · cases h
  · rename_i d hd
    unfold checked_sub at hd
    split at hd
    · rename_i hle
      injection hd with hd₂
      subst hd₂
      injection h with h₂
      exact ⟨hle, h₂.symm⟩
    · cases hd

/-- C3: the in-range cursor invariant is one the code itself breaks: from
the non-empty listing [a, b, c] (N = 3) at cursor 1 with column height 2,
MoveLeft stores cursor 3 = N, which is not < 3, so the invariant does not
survive every operation. -/
theorem c3_move_left_breaks_cursor_invariant :
    Option.map App.cursor_positions (move_cursor_left 5 abc_cursor1_app)
      = some [3]
    ∧ abc_cursor1_app.current_dir_contents.length = 3
    ∧ ¬ 3 < 3 := by
  refine ⟨rfl, rfl, by omega⟩

/-- C4: on an empty entry list the operations are not no-ops: every one
of MoveUp, MoveDown, MoveLeft, MoveRight, Activate and TogglePreview
panics (usize underflow, out-of-range indexing, or remainder by zero)
instead of leaving the state unchanged. -/
theorem c4_empty_directory_ops_panic :
    handle_key_event empty_fs 5 Cmd.up empty_dir_app = none
    ∧ handle_key_event empty_fs 5 Cmd.down empty_dir_app = none
    ∧ handle_key_event empty_fs 5 Cmd.left empty_dir_app = none
    ∧ handle_key_event empty_fs 5 Cmd.right empty_dir_app = none
    ∧ handle_key_event empty_fs 5 Cmd.enter empty_dir_app = none
    ∧ handle_key_event empty_fs 5 Cmd.toggle empty_dir_app = none := by
  refine ⟨rfl, rfl, rfl, rfl, rfl, rfl⟩

/-- C5: the Back command at the navigation root (depth 0) is not ignored:
go_out_of_dir decrements the usize depth unconditionally, so at depth 0
the program panics instead of leaving the state unchanged. -/
theorem c5_back_at_root_panics :
    at_root_app.current_cursor_depth = 0
    ∧ handle_key_event (fun _ => at_root_app.current_dir_contents) 5
        Cmd.back at_root_app = none := by
  refine ⟨rfl, rfl⟩

/-- C6: from any state satisfying the stack-length invariant whose cursor
selects a directory entry, Activate (EnterDirectory) immediately followed
by Back (ExitDirectory) restores the current path exactly and leaves the
whole cursor stack — in particular the parent depth's slot and every
shallower slot — exactly as it was before entering. -/
theorem c6_enter_then_exit_restores
    (fs : List String → List Entry) (fh : Nat) (s : App)
    (i : Nat) (e : Entry) (nm : String)
    (hlen : s.cursor_positions.length = s.current_cursor_depth + 1)
    (hpos : s.cursor_positions[s.current_cursor_depth]? = some i)
    (he : s.current_dir_contents[i]? = some e)
    (hdir : e.kind = EntryKind.dir)
    (hpath : e.path = s.current_dir_path ++ [nm]) :
    ∃ s₁ s₂,
      handle_key_event fs fh Cmd.enter s = some s₁ ∧
      handle_key_event fs fh Cmd.back s₁ = some s₂ ∧
      s₂.current_dir_path = s.current_dir_path ∧
      s₂.cursor_positions = s.cursor_positions ∧
      s₂.current_cursor_depth = s.current_cursor_depth := by
  have hsel : s.selected_entry = some e := by
    simp only [App.selected_entry, App.current_cursor_position, hpos, he]
  have hod : s.currently_on_dir = some true := by
    simp only [App.currently_on_dir, hsel, hdir]
    simp
  refine ⟨{ s with
      current_dir_path := e.path
      current_dir_contents := fs e.path
      current_cursor_depth := s.current_cursor_depth + 1
      cursor_positions := s.cursor_positions ++ [0] },
    { s with current_dir_contents := fs s.current_dir_path },
    ?_, ?_, rfl, rfl, rfl⟩
  · simp only [handle_key_event, hod, go_into_dir, hsel]
    rw [if_pos (by omega : s.cursor_positions.length ≤ s.current_cursor_depth + 1)]
  · simp only [handle_key_event, go_out_of_dir,
      checked_sub_eq_some (s.current_cursor_depth + 1) 1 (by omega)]
    simp only [hpath, List.dropLast_concat, Nat.add_sub_cancel]

/-- Witness for c6_enter_then_exit_restores: a two-level filesystem with
one subdirectory under the root. -/
theorem c6_enter_then_exit_restores_witness :
    ∃ s₁ s₂,
      handle_key_event
          (fun p => if p = [] then [⟨["sub"], EntryKind.dir⟩] else [])
          5 Cmd.enter (App.mk false [] [⟨["sub"], EntryKind.dir⟩] [0] 0 false)
        = some s₁ ∧
      handle_key_event
          (fun p => if p = [] then [⟨["sub"], EntryKind.dir⟩] else [])
          5 Cmd.back s₁ = some s₂ ∧
      s₂.current_dir_path
        = (App.mk false [] [⟨["sub"], EntryKind.dir⟩] [0] 0 false).current_dir_path ∧
      s₂.cursor_positions
        = (App.mk false [] [⟨["sub"], EntryKind.dir⟩] [0] 0 false).cursor_positions ∧
      s₂.current_cursor_depth
        = (App.mk false [] [⟨["sub"], EntryKind.dir⟩] [0] 0 false).current_cursor_depth :=
  c6_enter_then_exit_restores
    (fun p => if p = [] then [⟨["sub"], EntryKind.dir⟩] else [])
    5 (App.mk false [] [⟨["sub"], EntryKind.dir⟩] [0] 0 false)
    0 ⟨["sub"], EntryKind.dir⟩ "sub" rfl rfl rfl rfl rfl

/-- C7: every successful EnterDirectory, from a state satisfying the
stack-length invariant — including one that re-enters a directory visited
and exited earlier — leaves the cursor at the new current depth at 0,
because the slot for that depth was popped on the prior exit and a fresh
zero slot is pushed. -/
theorem c7_enter_resets_cursor_to_zero
    (fs : List String → List Entry) (s s₁ : App)
    (hlen : stack_inv s)
    (h : go_into_dir fs s = some s₁) :
    s₁.current_cursor_position = some 0 := by
  obtain ⟨e, hsel, rfl⟩ := go_into_dir_shape fs s s₁ h
  unfold stack_inv at hlen
  simp only [App.current_cursor_position]
  rw [if_pos (by omega : s.cursor_positions.length ≤ s.current_cursor_depth + 1)]
  have h₂ : s.current_cursor_depth + 1 = s.cursor_positions.length := hlen.symm
  rw [h₂]
  exact List.getElem?_concat_length _ _

/-- Witness for c7_enter_resets_cursor_to_zero: entering the directory
under the cursor of at_root_app. -/
theorem c7_enter_resets_cursor_to_zero_witness :
    App.current_cursor_position (App.mk false ["e"] [] [0, 0] 1 false) = some 0 :=
  c7_enter_resets_cursor_to_zero empty_fs at_root_app
    (App.mk false ["e"] [] [0, 0] 1 false) rfl rfl

/-- C8: the cursor stack holds exactly currentDepth + 1 slots: the
invariant holds after Construct (App::new), is preserved by every
command, EnterDirectory is the only operation that grows the stack (by
one), and ExitDirectory the only one that shrinks it (by one). -/
theorem c8_stack_length_invariant :
    (∀ fs p, stack_inv (App.new fs p))
    ∧ (∀ fs fh c s s₁, handle_key_event fs fh c s = some s₁ →
        stack_inv s → stack_inv s₁)
    ∧ (∀ fs s s₁, go_into_dir fs s = some s₁ → stack_inv s →
        s₁.cursor_positions.length = s.cursor_positions.length + 1)
    ∧ (∀ fs s s₁, go_out_of_dir fs s = some s₁ → stack_inv s →
        s₁.cursor_positions.length + 1 = s.cursor_positions.length)
    ∧ (∀ fs fh c s s₁, c ≠ Cmd.enter → c ≠ Cmd.back →
        handle_key_event fs fh c s = some s₁ →
        s₁.cursor_positions.length = s.cursor_positions.length) := by
  have hgrow : ∀ fs s s₁, go_into_dir fs s = some s₁ → stack_inv s →
      s₁.cursor_positions.length = s.cursor_positions.length + 1 ∧
      s₁.current_cursor_depth = s.current_cursor_depth + 1 := by
    intro fs s s₁ h hs
    obtain ⟨e, hsel, rfl⟩ := go_into_dir_shape fs s s₁ h
    unfold stack_inv at hs
    constructor
    · simp only
      rw [if_pos (by omega), List.length_append]
      simp
    · rfl
  have hshrink : ∀ fs s s₁, go_out_of_dir fs s = some s₁ → stack_inv s →
      s₁.cursor_positions.length + 1 = s.cursor_positions.length ∧
      s₁.current_cursor_depth + 1 = s.current_cursor_depth := by
    intro fs s s₁ h hs
    obtain ⟨hd, rfl⟩ := go_out_of_dir_shape fs s s₁ h
    unfold stack_inv at hs
    constructor
    · simp only [List.length_dropLast]
      omega
    · simp only
      omega
  have hsame : ∀ fs fh c s s₁, c ≠ Cmd.enter → c ≠ Cmd.back →
      handle_key_event fs fh c s = some s₁ →
      s₁.cursor_positions.length = s.cursor_positions.length ∧
      s₁.current_cursor_depth = s.current_cursor_depth := by
    intro fs fh c s s₁ hce hcb h
    cases c with
    | quit =>
      injection h with h₂
      subst h₂
      exact ⟨rfl, rfl⟩
    | up =>
      obtain ⟨v, rfl⟩ := move_cursor_up_shape s s₁ h
      exact ⟨List.length_set _ _ _, rfl⟩
    | down =>
      obtain ⟨v, rfl⟩ := move_cursor_down_shape s s₁ h
      exact ⟨List.length_set _ _ _, rfl⟩
    | right =>
      obtain ⟨v, rfl⟩ := move_cursor_right_shape fh s s₁ h
      exact ⟨List.length_set _ _ _, rfl⟩
    | left =>
      obtain ⟨v, rfl⟩ := move_cursor_left_shape fh s s₁ h
      exact ⟨List.length_set _ _ _, rfl⟩
    | enter => exact absurd rfl hce
    | back => exact absurd rfl hcb
    | toggle =>
      simp only [handle_key_event] at h
      split at h
      · cases h
      · injection h with h₂
        subst h₂
        exact ⟨rfl, rfl⟩
      · injection h with h₂
        subst h₂
        exact ⟨rfl, rfl⟩
  refine ⟨?_, ?_, ?_, ?_, ?_⟩
  · intro fs p
    unfold stack_inv App.new
    simp [List.length_replicate]
  · intro fs fh c s s₁ h hs
    cases c with
    | enter =>
      simp only [handle_key_event] at h
      split at h
      · cases h
      · unfold stack_inv at hs ⊢
        obtain ⟨h₁, h₂⟩ := hgrow fs s s₁ h hs
        omega
      · injection h with h₂
        subst h₂
        exact hs
    | back =>
      unfold stack_inv at hs ⊢
      obtain ⟨h₁, h₂⟩ := hshrink fs s s₁ h hs
      omega
    | quit =>
      obtain ⟨h₁, h₂⟩ := hsame fs fh Cmd.quit s s₁ (by simp) (by simp) h
      unfold stack_inv at hs ⊢
      omega
    | up =>
      obtain ⟨h₁, h₂⟩ := hsame fs fh Cmd.up s s₁ (by simp) (by simp) h
      unfold stack_inv at hs ⊢
      omega
    | down =>
      obtain ⟨h₁, h₂⟩ := hsame fs fh Cmd.down s s₁ (by simp) (by simp) h
      unfold stack_inv at hs ⊢
      omega
    | right =>
      obtain ⟨h₁, h₂⟩ := hsame fs fh Cmd.right s s₁ (by simp) (by simp) h
      unfold stack_inv at hs ⊢
      omega
    | left =>
      obtain ⟨h₁, h₂⟩ := hsame fs fh Cmd.left s s₁ (by simp) (by simp) h
      unfold stack_inv at hs ⊢
      omega
    | toggle =>
      obtain ⟨h₁, h₂⟩ := hsame fs fh Cmd.toggle s s₁ (by simp) (by simp) h
      unfold stack_inv at hs ⊢
      omega
  · intro fs s s₁ h hs
    exact (hgrow fs s s₁ h hs).1
  · intro fs s s₁ h hs
    exact (hshrink fs s s₁ h hs).1
  · intro fs fh c s s₁ hce hcb h
    exact (hsame fs fh c s s₁ hce hcb h).1

/-- Witness for c8_stack_length_invariant: the constructed state and one
preserved step. -/
theorem c8_stack_length_invariant_witness :
    stack_inv (App.new empty_fs ["x"]) ∧
    stack_inv (App.mk false [] abcEntries [1] 0 false) :=
  ⟨c8_stack_length_invariant.1 empty_fs ["x"],
   c8_stack_length_invariant.2.1 empty_fs 5 Cmd.down
     (App.mk false [] abcEntries [0] 0 false)
     (App.mk false [] abcEntries [1] 0 false) rfl rfl⟩

end TuiExplorer
